import Mathlib

/-!
# Verification of the long-prompt-weighting denoising pipeline

Shallow embedding of `core/inference/pytorch/pipeline.py`
(`StableDiffusionLongPromptWeightingPipeline`).

Tensors are modelled by their batch structure: a `BTensor` is a list of
batch items, each a flattened list of rationals.  Exact rational
arithmetic stands in for floating point; precision casts such as
`.half()` and `.to(dtype=...)` are identities in this model.

External collaborators (scheduler, UNet, ControlNet, VAE/codec,
mask/latent preparation, the SAG helpers from `sag.py`) are opaque
function parameters gathered into a `Collab` structure, mirroring the
collaborator contracts of the specification.  Network and codec
invocations are recorded as `Event`s so that claims about which calls
happen, in which order, and with which arguments, can be stated.
-/

namespace LPW

/-- A tensor, reduced to its batch dimension: one flattened row of
rationals per batch item. -/
abbrev BTensor := List (List ℚ)

/-- Model of `torch.cat` along the channel dimension (dim=1): append within each
batch item. -/
def catChannels (a b : BTensor) : BTensor := List.zipWith (· ++ ·) a b

/-- First half of `tensor.chunk(2)` along the batch dimension (torch
rounds chunk sizes up). -/
def chunkFst (l : BTensor) : BTensor := l.take ((l.length + 1) / 2)

/-- Second half of `tensor.chunk(2)` along the batch dimension. -/
def chunkSnd (l : BTensor) : BTensor := l.drop ((l.length + 1) / 2)

/-- Model of `torch.zeros_like`. -/
def zerosLike (a : BTensor) : BTensor := a.map (fun r => r.map (fun _ => (0 : ℚ)))

/-- Elementwise addition. -/
def addT (a b : BTensor) : BTensor := List.zipWith (List.zipWith (· + ·)) a b

/-- Elementwise subtraction. -/
def subT (a b : BTensor) : BTensor := List.zipWith (List.zipWith (· - ·)) a b

/-- Scalar multiplication. -/
def smulT (c : ℚ) (a : BTensor) : BTensor := a.map (fun r => r.map (fun v => c * v))

/-- Entry of a `BTensor` at batch index `b`, flattened position `j`
(out-of-range reads default to 0). -/
def getV (a : BTensor) (b j : Nat) : ℚ := (a.getD b []).getD j 0

/-- Observable invocations of external networks and of the codec, plus
progress-callback firings, recorded in document order. -/
inductive Event where
  | unetCall (input : BTensor) (t : Int) (cond : BTensor)
      (residuals : Option (List BTensor × BTensor))
  | controlnetCall (input : BTensor) (t : Int) (cond : BTensor) (scale : ℚ)
  | codecEncode
  | codecDecode (height width : Nat)
  | maskPrep (height width : Nat)
  | latentPrep (height width : Nat)
  | callbackCall (i : Nat)
  deriving DecidableEq

/-- The `prompt` argument: a string, a list of strings, or a value of
any other runtime type (rejected by validation). -/
inductive PromptInput where
  | str (s : String)
  | listP (l : List String)
  | other
  deriving DecidableEq

/-- The `negative_prompt` argument (when not `None`). -/
inductive NegPrompt where
  | str (s : String)
  | listP (l : List String)
  deriving DecidableEq

/-- The runtime value of `callback_steps`: `None`, an `int`, or a value
of some other type. -/
inductive CallbackSteps where
  | noneV
  | intV (n : Int)
  | notInt
  deriving DecidableEq

/-- The `image` argument: a tensor or a PIL image carrying its own pixel
size (`image.size` returns `(width, height)`). -/
inductive ImageInput where
  | tensor (t : BTensor)
  | pil (width height : Nat) (data : BTensor)
  deriving DecidableEq

/-- The `output_type` argument. -/
inductive OutputType where
  | pil
  | latent
  deriving DecidableEq

/-- The `ValueError`s raised by input validation. -/
inductive PipeError where
  | invalidPromptType
  | invalidStrength
  | invalidCallbackSteps
  | negativeBatchMismatch
  deriving DecidableEq

/-- Result of `__call__`: the cancellation sentinel (`None`), raw
latents, or decoded images. -/
inductive PipeResult where
  | cancelled
  | latentOut (x : BTensor)
  | imagesOut (img : BTensor)
  deriving DecidableEq

/-- Opaque external collaborators.  Each field models one documented
collaborator contract (spec section 6); the engine treats them as black
boxes and this embedding quantifies over them. -/
structure Collab where
  /-- Per-prompt row of `get_weighted_text_embeddings` (one embedding
  row per prompt, by the text-encoder contract). -/
  encode_one : String → List ℚ
  /-- Contract of `scheduler.scale_model_input`. -/
  scale_model_input : BTensor → Int → BTensor
  /-- Contract of `scheduler.step(noise_pred, t, x).prev_sample`. -/
  sched_step : BTensor → Int → BTensor → BTensor
  /-- Contract of `scheduler.add_noise(latent, noise, t)`. -/
  add_noise : BTensor → BTensor → Int → BTensor
  /-- The ControlNet: `(input, t, embeds, cond_image, scale, guess) ↦
  (down_block_res_samples, mid_block_res_sample)`. -/
  controlnet_net : BTensor → Int → BTensor → Option BTensor → ℚ → Bool →
    (List BTensor × BTensor)
  /-- The UNet denoiser: `(input, t, embeds, residuals) ↦ noise_pred`. -/
  unet_net : BTensor → Int → BTensor → Option (List BTensor × BTensor) → BTensor
  /-- Contract of `pred_x0` from `sag.py`. -/
  pred_x0 : BTensor → BTensor → Int → BTensor
  /-- Contract of `pred_epsilon` from `sag.py`. -/
  pred_eps : BTensor → BTensor → Int → BTensor
  /-- Contract of `sag_masking` from `sag.py` (the map-size argument is internal to
  the collaborator). -/
  sag_mask : BTensor → BTensor → Int → BTensor → BTensor
  /-- Value of `store_processor.attention_probs`, captured by the probe. -/
  attention_probs : BTensor
  /-- Contract of `pad_tensor(mask, 8, spatial_shape)` from the utilities. -/
  pad_tensor : BTensor → BTensor
  /-- Contract of `preprocess_image` from the utilities. -/
  preprocess_image : ImageInput → BTensor
  /-- Contract of `prepare_image` from the utilities (ControlNet path). -/
  prepare_image : ImageInput → BTensor
  /-- Contract of `prepare_mask_and_masked_image(image, mask_image, h, w)`. -/
  prepare_mask_and_masked : Option BTensor → BTensor → Nat → Nat → BTensor × BTensor
  /-- Contract of `prepare_mask_latents` (encodes the masked image through the VAE). -/
  prepare_mask_latents : BTensor → BTensor → BTensor × BTensor
  /-- Contract of `prepare_latents(image?) ↦ (latents, image_latents, noise)`. -/
  prepare_latents : Option BTensor → BTensor × BTensor × BTensor
  /-- Contract of `scheduler.do_inference` of the external-sampler adapter. -/
  do_inference : BTensor → BTensor
  /-- Contract of the `full_vae` / `vae.decode` composition. -/
  vae_decode : BTensor → BTensor
  /-- The base timestep list that `scheduler.set_timesteps` installs. -/
  sched_timesteps : Nat → List Int

/-- Flag `do_classifier_free_guidance = guidance_scale > 1.0`
(pipeline.py line 346). -/
def cfgEnabled (guidance_scale : ℚ) : Bool := decide (guidance_scale > 1)

/-- Flag `do_self_attention_guidance = self_attention_scale > 0.0`
(pipeline.py line 348). -/
def sagEnabled (self_attention_scale : ℚ) : Bool := decide (self_attention_scale > 0)

/-- Model of `batch_size = len(prompt) if isinstance(prompt, list) else 1`. -/
def promptBatchSize (prompt : PromptInput) : Nat :=
  match prompt with
  | .listP l => l.length
  | _ => 1

/-- The list of prompts handed to the text encoder. -/
def promptList (prompt : PromptInput) : List String :=
  match prompt with
  | .str s => [s]
  | .listP l => l
  | .other => []

/-- Model of `emb.repeat(1, num_images_per_prompt, 1).view(bs * nipp, seq, -1)`:
each per-prompt row is repeated `nipp` times, adjacently. -/
def expandPerPrompt (nipp : Nat) (rows : BTensor) : BTensor :=
  rows.flatMap (fun r => List.replicate nipp r)

/-- Lines 164-167 of `_encode_prompt`: normalisation of the negative
prompt to one entry per prompt-batch element. -/
def negPromptList (batch_size : Nat) (negative : Option NegPrompt) : List String :=
  match negative with
  | none => List.replicate batch_size ""
  | some (.str s) => List.replicate batch_size s
  | some (.listP l) => l

/-- Model of `_encode_prompt` (pipeline.py lines 129-195): normalises the
negative prompt, validates the batch sizes, encodes, expands by
images-per-prompt and, under classifier-free guidance, prepends the
unconditional embeddings. -/
def encode_prompt (encOne : String → List ℚ) (prompt : PromptInput)
    (num_images_per_prompt : Nat) (do_classifier_free_guidance : Bool)
    (negative : Option NegPrompt) : Except PipeError BTensor :=
  let batch_size := promptBatchSize prompt
  let negList : List String := negPromptList batch_size negative
  if batch_size ≠ negList.length then .error .negativeBatchMismatch
  else
    let text_embeddings := expandPerPrompt num_images_per_prompt
      ((promptList prompt).map encOne)
    if do_classifier_free_guidance then
      let uncond_embeddings := expandPerPrompt num_images_per_prompt
        (negList.map encOne)
      .ok (uncond_embeddings ++ text_embeddings)
    else .ok text_embeddings

/-- Model of `_check_inputs` (pipeline.py lines 197-215). -/
def check_inputs (prompt : PromptInput) (strength : ℚ)
    (callback_steps : CallbackSteps) : Except PipeError Unit :=
  if prompt = .other then .error .invalidPromptType
  else if strength < 0 ∨ strength > 1 then .error .invalidStrength
  else
    match callback_steps with
    | .intV n => if n ≤ 0 then .error .invalidCallbackSteps else .ok ()
    | _ => .error .invalidCallbackSteps

/-- Lines 458-465 of `do_denoise`: double the latent batch under CFG,
scale, and channel-concatenate mask latents for the 9-channel inpainting
UNet. -/
def latentModelInput (coll : Collab) (do_cfg : Bool) (num_channels_unet : Nat)
    (mask mil : Option BTensor) (x : BTensor) (t : Int) : BTensor :=
  let l := if do_cfg then x ++ x else x
  let l := coll.scale_model_input l t
  if num_channels_unet == 9 then
    catChannels (catChannels l (mask.getD [])) (mil.getD [])
  else l

/-- Lines 467-519 of `do_denoise`: the raw noise prediction, through the
plain UNet path or the ControlNet path (with guess-mode conditional-only
invocation and zero-padding of the residuals). -/
def predictNoiseRaw (coll : Collab) (hasControlnet guess_mode do_cfg : Bool)
    (controlnet_conditioning_scale : ℚ) (keep : List ℚ)
    (cimage : Option BTensor) (i : Nat) (lmi : BTensor)
    (text_embeddings x : BTensor) (t : Int) : BTensor × List Event :=
  if hasControlnet = false then
    (coll.unet_net lmi t text_embeddings none,
     [.unetCall lmi t text_embeddings none])
  else
    let cmi := if guess_mode && do_cfg then coll.scale_model_input x t else lmi
    let cembeds := if guess_mode && do_cfg then chunkSnd text_embeddings
      else text_embeddings
    let cond_scale := controlnet_conditioning_scale * keep.getD i 0
    let res := coll.controlnet_net cmi t cembeds cimage cond_scale guess_mode
    let res2 :=
      if guess_mode && do_cfg then
        (res.1.map (fun d => zerosLike d ++ d), zerosLike res.2 ++ res.2)
      else res
    (coll.unet_net lmi t text_embeddings (some res2),
     [.controlnetCall cmi t cembeds cond_scale,
      .unetCall lmi t text_embeddings (some res2)])

/-- Lines 522-526: the classifier-free-guidance combination
`uncond + guidance_scale * (cond - uncond)` over the two batch halves. -/
def cfgCombine (guidance_scale : ℚ) (noise_pred : BTensor) : BTensor :=
  List.zipWith
    (fun u c => List.zipWith (fun a b => a + guidance_scale * (b - a)) u c)
    (chunkFst noise_pred) (chunkSnd noise_pred)

/-- Lines 528-561: self-attention guidance, adding
`self_attention_scale * (base_pred - degraded_pred)` after one extra
denoiser invocation on the degraded latents. -/
def applySag (coll : Collab) (do_sag do_cfg : Bool) (self_attention_scale : ℚ)
    (text_embeddings x : BTensor) (t : Int) (raw noise_pred : BTensor) :
    BTensor × List Event :=
  if do_sag = false then (noise_pred, [])
  else if do_cfg then
    let noise_pred_uncond := chunkFst raw
    let pred := coll.pred_x0 x noise_pred_uncond t
    let uncond_attn := chunkFst coll.attention_probs
    let degraded_latents :=
      coll.sag_mask pred uncond_attn t (coll.pred_eps x noise_pred_uncond t)
    let uncond_emb := chunkFst text_embeddings
    let degraded_prep := coll.unet_net degraded_latents t uncond_emb none
    (addT noise_pred (smulT self_attention_scale (subT noise_pred_uncond degraded_prep)),
     [.unetCall degraded_latents t uncond_emb none])
  else
    let pred := coll.pred_x0 x noise_pred t
    let degraded_latents :=
      coll.sag_mask pred coll.attention_probs t (coll.pred_eps x noise_pred t)
    let degraded_prep := coll.unet_net degraded_latents t text_embeddings none
    (addT noise_pred (smulT self_attention_scale (subT noise_pred degraded_prep)),
     [.unetCall degraded_latents t text_embeddings none])

/-- Pointwise `(1 - m) * l + m * xv`. -/
def combineMLX : List ℚ → List ℚ → List ℚ → List ℚ
  | m :: ms, l :: ls, xv :: xs => ((1 - m) * l + m * xv) :: combineMLX ms ls xs
  | _, _, _ => []

/-- Computes `(1 - init_mask) * init_latents_proper + init_mask * x`, with the
batch-1 mask and known-region latent broadcast over the batch of `x`. -/
def broadcastCombine (initMask initLatents x : BTensor) : BTensor :=
  x.map (fun xi => combineMLX (initMask.headD []) (initLatents.headD []) xi)

/-- Lines 571-583: inpainting-mask compositing after the step (the
known-region latent is re-noised to the next scheduled timestep on all
steps but the last). -/
def maskStage (coll : Collab) (image_latents noise : BTensor)
    (timesteps : List Int) (i : Nat) (mask : BTensor) (x : BTensor) : BTensor :=
  let init_latents_proper := image_latents.take 1
  let init_mask := coll.pad_tensor (mask.take 1)
  let init_latents_proper :=
    if i < timesteps.length - 1 then
      coll.add_noise init_latents_proper noise (timesteps.getD (i + 1) 0)
    else init_latents_proper
  broadcastCombine init_mask init_latents_proper x

/-- Model of `do_denoise` up to and including the scheduler step (lines 453-569):
input assembly, raw prediction, CFG combination, SAG, and the
single-step transition (the external sampler takes the noise prediction
itself as the new state). -/
def denoiseCore (coll : Collab)
    (do_cfg do_sag hasControlnet guess_mode is_kdiffusion : Bool)
    (guidance_scale self_attention_scale controlnet_conditioning_scale : ℚ)
    (keep : List ℚ) (num_channels_unet : Nat) (mask mil cimage : Option BTensor)
    (i : Nat) (text_embeddings x : BTensor) (t : Int) : BTensor × List Event :=
  let lmi := latentModelInput coll do_cfg num_channels_unet mask mil x t
  let rawEv := predictNoiseRaw coll hasControlnet guess_mode do_cfg
    controlnet_conditioning_scale keep cimage i lmi text_embeddings x t
  let noise_pred := if do_cfg then cfgCombine guidance_scale rawEv.1 else rawEv.1
  let sagEv := applySag coll do_sag do_cfg self_attention_scale
    text_embeddings x t rawEv.1 noise_pred
  let x1 := if is_kdiffusion then sagEv.1 else coll.sched_step sagEv.1 t x
  (x1, rawEv.2 ++ sagEv.2)

/-- Model of `do_denoise` (pipeline.py lines 453-584): the per-step denoising
function, including the inpainting-mask compositing applied only when a
mask is present and the UNet has 4 channels. -/
def do_denoise (coll : Collab)
    (do_cfg do_sag hasControlnet guess_mode is_kdiffusion : Bool)
    (guidance_scale self_attention_scale controlnet_conditioning_scale : ℚ)
    (keep : List ℚ) (num_channels_unet : Nat) (mask mil cimage : Option BTensor)
    (image_latents noise : BTensor) (timesteps : List Int)
    (i : Nat) (text_embeddings x : BTensor) (t : Int) : BTensor × List Event :=
  let core := denoiseCore coll do_cfg do_sag hasControlnet guess_mode
    is_kdiffusion guidance_scale self_attention_scale
    controlnet_conditioning_scale keep num_channels_unet mask mil cimage
    i text_embeddings x t
  let x2 :=
    match mask with
    | some m =>
        if num_channels_unet == 4 then
          maskStage coll image_latents noise timesteps i m core.1
        else core.1
    | none => core.1
  (x2, core.2)

/-- Lines 431-439: the per-step ControlNet keep weights
`1.0 - float(i / len < 0.0 or (i + 1) / len > 1.0)`. -/
def controlnetKeep (n : Nat) : List ℚ :=
  (List.range n).map (fun (i : Nat) =>
    1 - (if (i : ℚ) / (n : ℚ) < 0 ∨ ((i : ℚ) + 1) / (n : ℚ) > 1 then (1 : ℚ) else 0))

/-- The discrete-scheduler denoising loop (pipeline.py lines 615-626):
step, then at every `callback_steps`-th index fire the progress callback
and poll the cancellation predicate; a positive poll returns `None`
immediately.  The stateful zero-argument predicate is modelled as a
function of the poll's step index. -/
def denoiseLoop (step : Nat → BTensor → Int → BTensor × List Event)
    (callback_steps : Int) (hasCallback hasCancel : Bool)
    (cancel : Nat → Bool) :
    List Int → Nat → BTensor → Option BTensor × List Event
  | [], _, x => (some x, [])
  | t :: rest, i, x =>
    let s := step i x t
    if (i : Int) % callback_steps = 0 then
      let cbev := if hasCallback then [Event.callbackCall i] else []
      if hasCancel && cancel i then (none, s.2 ++ cbev)
      else
        let r := denoiseLoop step callback_steps hasCallback hasCancel
          cancel rest (i + 1) s.1
        (r.1, s.2 ++ cbev ++ r.2)
    else
      let r := denoiseLoop step callback_steps hasCallback hasCancel
        cancel rest (i + 1) s.1
      (r.1, s.2 ++ r.2)

/-- Modelled from the spec: the effective step count of the schedule
builder `get_timesteps` (`core.inference.utilities`, not among the
reviewed sources).  Spec sections 2 and 4.1: when not starting from pure
noise, `effective = min(round(requested_steps * strength), requested_steps)`;
otherwise the requested count. -/
def effectiveStepCount (requested : Nat) (strength : ℚ) (fromNoise : Bool) : Nat :=
  if fromNoise then requested
  else min (Int.toNat (round ((requested : ℚ) * strength))) requested

/-- Modelled from the spec: `get_timesteps` returns the schedule suffix
starting at offset `requested - effective` together with the effective
step count (spec section 2). -/
def get_timesteps_spec (base : List Int) (requested : Nat) (strength : ℚ)
    (fromNoise : Bool) : List Int × Nat :=
  (base.drop (requested - effectiveStepCount requested strength fromNoise),
   effectiveStepCount requested strength fromNoise)

/-- The validated `callback_steps` integer driving the loop's polling
interval (after validation it is always the `int` payload). -/
def callbackStepsInt (cb : CallbackSteps) : Int :=
  match cb with
  | .intV n => n
  | _ => 1

/-- The from-pure-noise flag the pipeline passes to the schedule builder
(pipeline.py line 406): `image is None or self.controlnet is not None`. -/
def pipelineFromNoiseFlag (image : Option ImageInput) (hasControlnet : Bool) : Bool :=
  image.isNone || hasControlnet

/-- Effective step count of an invocation, as a function of the image
argument and ControlNet presence. -/
def pipelineEffectiveSteps (image : Option ImageInput) (hasControlnet : Bool)
    (requested : Nat) (strength : ℚ) : Nat :=
  effectiveStepCount requested strength (pipelineFromNoiseFlag image hasControlnet)

/-- Lines 362-375: a PIL image overrides the caller-supplied width and
height with its own pixel size, then is converted to a tensor.  Returns
`(height, width, image-tensor?)`. -/
def preprocessStage (coll : Collab) (hasControlnet : Bool)
    (image : Option ImageInput) (height width : Nat) :
    Nat × Nat × Option BTensor :=
  match image with
  | some (.pil w h d) =>
      if hasControlnet then (h, w, some (coll.prepare_image (.pil w h d)))
      else (h, w, some (coll.preprocess_image (.pil w h d)))
  | some (.tensor tb) => (height, width, some tb)
  | none => (height, width, none)

/-- Lines 378-397: mask and masked-image latent preparation (the masked
image is encoded through the VAE).  Returns `(mask?, masked_image_latents?, events)`. -/
def maskPrepStage (coll : Collab) (imageT : Option BTensor)
    (mask_image : Option BTensor) (height width : Nat) :
    Option BTensor × Option BTensor × List Event :=
  match mask_image with
  | some mi =>
      let mm := coll.prepare_mask_and_masked imageT mi height width
      let ml := coll.prepare_mask_latents mm.1 mm.2
      (some ml.1, some ml.2, [Event.maskPrep height width, Event.codecEncode])
  | none => (none, none, [])

/-- Lines 413-426: latent preparation; with a ControlNet the image is
not used as a starting latent.  Returns
`((latents, image_latents, noise), events)`. -/
def latentPrepStage (coll : Collab) (hasControlnet : Bool)
    (imageT : Option BTensor) (height width : Nat) :
    (BTensor × BTensor × BTensor) × List Event :=
  let latentsImage := if hasControlnet then none else imageT
  (coll.prepare_latents latentsImage,
   (if latentsImage.isSome then [Event.codecEncode] else [])
     ++ [Event.latentPrep height width])

/-- The per-step denoising closure the pipeline hands to the loop: the
local function `do_denoise` with its captured configuration (guess-mode
flag, prepared mask and latents, schedule and keep weights). -/
def pipelineStepFn (coll : Collab)
    (hasControlnet global_pool_conditions is_kdiffusion : Bool)
    (ch : Nat) (image : Option ImageInput) (mask_image : Option BTensor)
    (height width : Nat) (cscale : ℚ) (guess_mode : Bool) (steps : Nat)
    (g sas strength : ℚ) (te : BTensor) :
    Nat → BTensor → Int → BTensor × List Event :=
  let guess := if hasControlnet then guess_mode || global_pool_conditions
    else guess_mode
  let pre := preprocessStage coll hasControlnet image height width
  let ms := maskPrepStage coll pre.2.2 mask_image pre.1 pre.2.1
  let ts := get_timesteps_spec (coll.sched_timesteps steps) steps strength
    (pipelineFromNoiseFlag image hasControlnet)
  let lp := latentPrepStage coll hasControlnet pre.2.2 pre.1 pre.2.1
  let keep := if hasControlnet then controlnetKeep ts.1.length else []
  fun i x t =>
    do_denoise coll (cfgEnabled g) (sagEnabled sas) hasControlnet guess
      is_kdiffusion g sas cscale keep ch ms.1 ms.2.1 pre.2.2 lp.1.2.1 lp.1.2.2
      ts.1 i te x t

/-- Model of `__call__` (pipeline.py lines 227-646): validation, prompt encoding,
image/mask preparation, schedule construction, the denoising loop
(discrete or external-sampler variant) and postprocessing.  Returns the
result (or validation error) together with the event trace. -/
def pipelineCall (coll : Collab)
    (hasControlnet global_pool_conditions is_kdiffusion : Bool)
    (num_channels_unet : Nat) (prompt : PromptInput)
    (negative_prompt : Option NegPrompt) (image : Option ImageInput)
    (mask_image : Option BTensor) (height width : Nat)
    (controlnet_conditioning_scale : ℚ) (guess_mode : Bool)
    (num_inference_steps : Nat)
    (guidance_scale self_attention_scale strength : ℚ)
    (num_images_per_prompt : Nat) (output_type : OutputType)
    (hasCallback hasCancel : Bool) (cancel : Nat → Bool)
    (callback_steps : CallbackSteps) :
    Except PipeError PipeResult × List Event :=
  match check_inputs prompt strength callback_steps with
  | .error e => (.error e, [])
  | .ok _ =>
    let do_cfg := cfgEnabled guidance_scale
    match encode_prompt coll.encode_one prompt num_images_per_prompt do_cfg
        negative_prompt with
    | .error e => (.error e, [])
    | .ok text_embeddings =>
      let pre := preprocessStage coll hasControlnet image height width
      let h := pre.1
      let w := pre.2.1
      let imageT := pre.2.2
      let ms := maskPrepStage coll imageT mask_image h w
      let ts := get_timesteps_spec (coll.sched_timesteps num_inference_steps)
        num_inference_steps strength (pipelineFromNoiseFlag image hasControlnet)
      let lp := latentPrepStage coll hasControlnet imageT h w
      let cs : Int := callbackStepsInt callback_steps
      let loopRes :=
        if is_kdiffusion then
          (some (coll.do_inference lp.1.1), ([] : List Event))
        else denoiseLoop
          (pipelineStepFn coll hasControlnet global_pool_conditions
            is_kdiffusion num_channels_unet image mask_image height width
            controlnet_conditioning_scale guess_mode num_inference_steps
            guidance_scale self_attention_scale strength text_embeddings)
          cs hasCallback hasCancel cancel ts.1 0 lp.1.1
      match loopRes.1 with
      | none => (.ok .cancelled, ms.2.2 ++ lp.2 ++ loopRes.2)
      | some latents =>
        match output_type with
        | .latent => (.ok (.latentOut latents), ms.2.2 ++ lp.2 ++ loopRes.2)
        | .pil =>
            (.ok (.imagesOut (coll.vae_decode latents)),
             ms.2.2 ++ lp.2 ++ loopRes.2 ++ [Event.codecDecode h w])

/-- The step indices at which the progress callback fired, in order. -/
def cbProj (tr : List Event) : List Nat :=
  tr.filterMap (fun e => match e with | .callbackCall i => some i | _ => none)

/-- Number of denoiser invocations in a trace. -/
def unetCount (tr : List Event) : Nat :=
  tr.countP (fun e => match e with | .unetCall _ _ _ _ => true | _ => false)

/-- The conditioning scales of the ControlNet invocations in a trace. -/
def ctrlScales (tr : List Event) : List ℚ :=
  tr.filterMap (fun e => match e with | .controlnetCall _ _ _ s => some s | _ => none)

/-- Whether an event is a latent-decoding codec invocation. -/
def Event.isDecode : Event → Bool
  | .codecDecode _ _ => true
  | _ => false

/-- Whether a trace contains a latent-decoding codec invocation. -/
def hasDecode (tr : List Event) : Bool := tr.any Event.isDecode

/-- Projection to the `(height, width)` of a mask-preparation event. -/
def maskPrepProj : Event → Option (Nat × Nat)
  | .maskPrep a b => some (a, b)
  | _ => none

/-- Projection to the `(height, width)` of a latent-preparation event. -/
def latentPrepProj : Event → Option (Nat × Nat)
  | .latentPrep a b => some (a, b)
  | _ => none

/-- Projection to the `(height, width)` of a decode event. -/
def decodeProj : Event → Option (Nat × Nat)
  | .codecDecode a b => some (a, b)
  | _ => none

/-- The `(height, width)` pairs of the mask-preparation calls in a
trace. -/
def maskPrepDims (tr : List Event) : List (Nat × Nat) := tr.filterMap maskPrepProj

/-- The `(height, width)` pairs of the latent-preparation calls in a
trace. -/
def latentPrepDims (tr : List Event) : List (Nat × Nat) :=
  tr.filterMap latentPrepProj

/-- The `(height, width)` pairs of the decode calls in a trace. -/
def decodeDims (tr : List Event) : List (Nat × Nat) := tr.filterMap decodeProj

/-! ## Helper lemmas -/

theorem length_expandPerPrompt (nipp : Nat) (rows : BTensor) :
    (expandPerPrompt nipp rows).length = rows.length * nipp := by
  induction rows with
  | nil => simp [expandPerPrompt]
  | cons r rs ih =>
      simp only [expandPerPrompt] at ih ⊢
      simp [List.flatMap_cons, ih, Nat.succ_mul, Nat.add_comm]

theorem chunkFst_append (u c : BTensor) (h : u.length = c.length) :
    chunkFst (u ++ c) = u := by
  have hlen : ((u ++ c).length + 1) / 2 = u.length := by
    simp only [List.length_append]; omega
  rw [chunkFst, hlen, List.take_left]

theorem chunkSnd_append (u c : BTensor) (h : u.length = c.length) :
    chunkSnd (u ++ c) = c := by
  have hlen : ((u ++ c).length + 1) / 2 = u.length := by
    simp only [List.length_append]; omega
  rw [chunkSnd, hlen, List.drop_left]

theorem ctrlScales_append (a b : List Event) :
    ctrlScales (a ++ b) = ctrlScales a ++ ctrlScales b := by
  simp [ctrlScales]

theorem unetCount_append (a b : List Event) :
    unetCount (a ++ b) = unetCount a + unetCount b := by
  simp [unetCount, List.countP_append]

theorem cbProj_append (a b : List Event) :
    cbProj (a ++ b) = cbProj a ++ cbProj b := by
  simp [cbProj]

theorem applySag_ctrlScales (coll : Collab) (do_sag do_cfg : Bool) (s : ℚ)
    (embeds x : BTensor) (t : Int) (raw np : BTensor) :
    ctrlScales (applySag coll do_sag do_cfg s embeds x t raw np).2 = [] := by
  cases do_sag <;> cases do_cfg <;> simp [applySag, ctrlScales]

theorem applySag_unetCount (coll : Collab) (do_sag do_cfg : Bool) (s : ℚ)
    (embeds x : BTensor) (t : Int) (raw np : BTensor) :
    unetCount (applySag coll do_sag do_cfg s embeds x t raw np).2
      = if do_sag then 1 else 0 := by
  cases do_sag <;> cases do_cfg <;> simp [applySag, unetCount]

theorem applySag_cbProj (coll : Collab) (do_sag do_cfg : Bool) (s : ℚ)
    (embeds x : BTensor) (t : Int) (raw np : BTensor) :
    cbProj (applySag coll do_sag do_cfg s embeds x t raw np).2 = [] := by
  cases do_sag <;> cases do_cfg <;> simp [applySag, cbProj]

theorem predictNoiseRaw_unetCount (coll : Collab)
    (hasControlnet guess_mode do_cfg : Bool) (cscale : ℚ) (keep : List ℚ)
    (cimage : Option BTensor) (i : Nat) (lmi : BTensor)
    (embeds x : BTensor) (t : Int) :
    unetCount (predictNoiseRaw coll hasControlnet guess_mode do_cfg cscale
      keep cimage i lmi embeds x t).2 = 1 := by
  cases hasControlnet <;> simp [predictNoiseRaw, unetCount]

theorem predictNoiseRaw_cbProj (coll : Collab)
    (hasControlnet guess_mode do_cfg : Bool) (cscale : ℚ) (keep : List ℚ)
    (cimage : Option BTensor) (i : Nat) (lmi : BTensor)
    (embeds x : BTensor) (t : Int) :
    cbProj (predictNoiseRaw coll hasControlnet guess_mode do_cfg cscale
      keep cimage i lmi embeds x t).2 = [] := by
  cases hasControlnet <;> simp [predictNoiseRaw, cbProj]

theorem predictNoiseRaw_ctrlScales_true (coll : Collab)
    (guess_mode do_cfg : Bool) (cscale : ℚ) (keep : List ℚ)
    (cimage : Option BTensor) (i : Nat) (lmi : BTensor)
    (embeds x : BTensor) (t : Int) :
    ctrlScales (predictNoiseRaw coll true guess_mode do_cfg cscale
      keep cimage i lmi embeds x t).2 = [cscale * keep.getD i 0] := by
  simp [predictNoiseRaw, ctrlScales]

theorem controlnetKeep_getD (n i : Nat) (hi : i < n) :
    (controlnetKeep n).getD i 0 = 1 := by
  have hn : 0 < n := Nat.lt_of_le_of_lt (Nat.zero_le i) hi
  have hcond : ¬ ((i : ℚ) / (n : ℚ) < 0 ∨ ((i : ℚ) + 1) / (n : ℚ) > 1) := by
    push_neg
    refine ⟨by positivity, ?_⟩
    rw [div_le_one (by exact_mod_cast hn)]
    have h1 : ((i + 1 : ℕ) : ℚ) ≤ (n : ℚ) := by exact_mod_cast hi
    push_cast at h1
    linarith
  have hilen : i < (controlnetKeep n).length := by
    rw [controlnetKeep, List.length_map, List.length_range]; exact hi
  rw [List.getD_eq_getElem _ _ hilen]
  simp only [controlnetKeep, List.getElem_map, List.getElem_range]
  rw [if_neg hcond]
  ring

/-- A concrete collaborator bundle used to evaluate the theorems on
explicit inputs. -/
def collZero : Collab :=
  ⟨fun _ => [0],
   fun a _ => a,
   fun np _ _ => np,
   fun l _ _ => l,
   fun _ _ _ _ _ _ => ([[[1]]], [[1]]),
   fun a _ _ _ => a,
   fun a _ _ => a,
   fun a _ _ => a,
   fun a _ _ _ => a,
   [[0], [0]],
   fun m => m,
   fun _ => [[0]],
   fun _ => [[0]],
   fun _ _ _ _ => ([[0]], [[0]]),
   fun m mi => (m, mi),
   fun _ => ([[0]], [[0]], [[0]]),
   fun xv => xv,
   fun xv => xv,
   fun n => List.replicate n 0⟩

/-! ## Claims -/

/-- C9: with a structural-control adapter present, each per-step
ControlNet keep weight equals `1.0` (full weight), so every ControlNet
invocation of `do_denoise` receives exactly the configured
`controlnet_conditioning_scale` as its conditioning scale. -/
theorem controlnet_keep_always_full
    (coll : Collab) (do_cfg do_sag guess_mode is_kdiffusion : Bool)
    (g sag cscale : ℚ) (ch : Nat) (mask mil cimage : Option BTensor)
    (image_latents noise : BTensor) (timesteps : List Int) (i : Nat)
    (embeds x : BTensor) (t : Int)
    (hi : i < timesteps.length) :
    (controlnetKeep timesteps.length).getD i 0 = 1 ∧
    ctrlScales (do_denoise coll do_cfg do_sag true guess_mode is_kdiffusion
      g sag cscale (controlnetKeep timesteps.length) ch mask mil cimage
      image_latents noise timesteps i embeds x t).2 = [cscale] := by
  have hkeep := controlnetKeep_getD timesteps.length i hi
  refine ⟨hkeep, ?_⟩
  simp only [do_denoise, denoiseCore]
  rw [ctrlScales_append, predictNoiseRaw_ctrlScales_true, applySag_ctrlScales,
    hkeep, mul_one, List.append_nil]

/-- Witness for C9: a concrete three-step schedule, full weight at step 1. -/
theorem controlnet_keep_always_full_witness :
    (controlnetKeep ([10, 5, 0] : List Int).length).getD 1 0 = 1 ∧
    ctrlScales (do_denoise collZero false false true false false
      2 0 (3/2) (controlnetKeep ([10, 5, 0] : List Int).length) 4 none none none
      [[0]] [[0]] [10, 5, 0] 1 [[0], [0]] [[0]] 5).2 = [3/2] :=
  controlnet_keep_always_full collZero false false false false
    2 0 (3/2) 4 none none none [[0]] [[0]] [10, 5, 0] 1 [[0], [0]] [[0]] 5
    (by decide)

/-- C6: with `self_attention_scale = 0`, self-attention guidance is
disabled and `do_denoise` performs exactly one denoiser invocation
(which is the base call, covering the optional CFG double batch). -/
theorem sag_disabled_single_unet_call
    (coll : Collab) (do_cfg hasControlnet guess_mode is_kdiffusion : Bool)
    (g cscale : ℚ) (keep : List ℚ) (ch : Nat) (mask mil cimage : Option BTensor)
    (image_latents noise : BTensor) (timesteps : List Int) (i : Nat)
    (embeds x : BTensor) (t : Int) (sas : ℚ) (hs : sas = 0) :
    sagEnabled sas = false ∧
    unetCount (do_denoise coll do_cfg (sagEnabled sas) hasControlnet guess_mode
      is_kdiffusion g sas cscale keep ch mask mil cimage
      image_latents noise timesteps i embeds x t).2 = 1 := by
  have hsag : sagEnabled sas = false := by
    simp [sagEnabled, hs]
  refine ⟨hsag, ?_⟩
  simp only [do_denoise, denoiseCore, hsag]
  rw [unetCount_append, predictNoiseRaw_unetCount, applySag_unetCount]
  simp

theorem promptList_length (prompt : PromptInput) (hp : prompt ≠ .other) :
    (promptList prompt).length = promptBatchSize prompt := by
  cases prompt with
  | str s => rfl
  | listP l => rfl
  | other => exact absurd rfl hp

theorem getD_zipWith_rat (f : ℚ → ℚ → ℚ) (u c : List ℚ) (j : Nat)
    (hj1 : j < u.length) (hj2 : j < c.length) :
    (List.zipWith f u c).getD j 0 = f (u.getD j 0) (c.getD j 0) := by
  rw [List.getD_eq_getElem _ _ (by rw [List.length_zipWith]; omega),
    List.getD_eq_getElem _ _ hj1, List.getD_eq_getElem _ _ hj2,
    List.getElem_zipWith]

theorem getD_zipWith_row (f : List ℚ → List ℚ → List ℚ) (u c : BTensor) (b : Nat)
    (hb1 : b < u.length) (hb2 : b < c.length) :
    (List.zipWith f u c).getD b [] = f (u.getD b []) (c.getD b []) := by
  rw [List.getD_eq_getElem _ _ (by rw [List.length_zipWith]; omega),
    List.getD_eq_getElem _ _ hb1, List.getD_eq_getElem _ _ hb2,
    List.getElem_zipWith]

theorem getD_take_row (l : BTensor) (n b : Nat) (hb : b < n) (hbl : b < l.length) :
    (l.take n).getD b [] = l.getD b [] := by
  rw [List.getD_eq_getElem _ _ (by rw [List.length_take]; omega),
    List.getD_eq_getElem _ _ hbl, List.getElem_take]

theorem getD_drop_row (l : BTensor) (n b : Nat) (h : n + b < l.length) :
    (l.drop n).getD b [] = l.getD (n + b) [] := by
  rw [List.getD_eq_getElem _ _ (by rw [List.length_drop]; omega),
    List.getD_eq_getElem _ _ h, List.getElem_drop]

/-- The classifier-free-guidance combination, read off entrywise: entry
`(b, j)` of the combined prediction is
`uncond + g * (cond - uncond)` with `uncond` taken from the first batch
half and `cond` from the second. -/
theorem cfgCombine_getV (g : ℚ) (raw : BTensor) (B : Nat)
    (hB : raw.length = 2 * B) (b j : Nat) (hb : b < B)
    (hj1 : j < (raw.getD b []).length) (hj2 : j < (raw.getD (B + b) []).length) :
    getV (cfgCombine g raw) b j
      = getV raw b j + g * (getV raw (B + b) j - getV raw b j) := by
  have hfst : chunkFst raw = raw.take B := by
    rw [chunkFst, hB]
    congr 1
    omega
  have hsnd : chunkSnd raw = raw.drop B := by
    rw [chunkSnd, hB]
    congr 1
    omega
  have hb2 : b < raw.length := by omega
  have hBb : B + b < raw.length := by omega
  simp only [getV, cfgCombine, hfst, hsnd]
  rw [getD_zipWith_row _ _ _ b (by rw [List.length_take]; omega)
      (by rw [List.length_drop]; omega),
    getD_take_row _ _ _ hb hb2, getD_drop_row _ _ _ hBb,
    getD_zipWith_rat _ _ _ j hj1 hj2]

/-- The raw noise prediction of one step of `do_denoise`: the denoiser
output on the assembled latent input, before guidance combination. -/
def rawNoisePred (coll : Collab) (hasControlnet guess_mode do_cfg : Bool)
    (cscale : ℚ) (keep : List ℚ) (cimage : Option BTensor) (i : Nat)
    (ch : Nat) (mask mil : Option BTensor) (embeds x : BTensor) (t : Int) :
    BTensor :=
  (predictNoiseRaw coll hasControlnet guess_mode do_cfg cscale keep cimage i
    (latentModelInput coll do_cfg ch mask mil x t) embeds x t).1

/-- Witness for C6: one concrete step with CFG on and SAG scale 0 makes
exactly one denoiser call. -/
theorem sag_disabled_single_unet_call_witness :
    sagEnabled 0 = false ∧
    unetCount (do_denoise collZero true (sagEnabled 0) false false
      false (15/2) 0 1 [] 4 none none none
      [[0]] [[0]] [10, 5] 0 [[0], [0]] [[0]] 10).2 = 1 :=
  sag_disabled_single_unet_call collZero true false false false
    (15/2) 1 [] 4 none none none [[0]] [[0]] [10, 5] 0 [[0], [0]] [[0]] 10
    0 rfl

/-- C5: for `guidance_scale ≤ 1.0` classifier-free guidance is
disabled: the prompt encoding concatenates no unconditional embeddings
and has the conditional-only batch size
`batch_size * num_images_per_prompt`, and the latent batch `do_denoise`
hands to the denoiser is the undoubled `x` (scaled, and
channel-extended only for the 9-channel inpainting UNet). -/
theorem cfg_disabled_no_doubling
    (coll : Collab) (prompt : PromptInput) (negative : Option NegPrompt)
    (nipp : Nat) (g : ℚ) (do_sag guess_mode is_kdiffusion : Bool)
    (sas cscale : ℚ) (keep : List ℚ) (ch : Nat)
    (mask mil cimage : Option BTensor) (image_latents noise : BTensor)
    (timesteps : List Int) (i : Nat) (embeds x : BTensor) (t : Int)
    (hg : g ≤ 1) (hp : prompt ≠ .other)
    (hneg : (negPromptList (promptBatchSize prompt) negative).length
      = promptBatchSize prompt)
    (hscale : ∀ a u, (coll.scale_model_input a u).length = a.length) :
    cfgEnabled g = false ∧
    encode_prompt coll.encode_one prompt nipp (cfgEnabled g) negative
      = .ok (expandPerPrompt nipp ((promptList prompt).map coll.encode_one)) ∧
    (expandPerPrompt nipp ((promptList prompt).map coll.encode_one)).length
      = promptBatchSize prompt * nipp ∧
    (do_denoise coll (cfgEnabled g) do_sag false guess_mode is_kdiffusion
        g sas cscale keep ch mask mil cimage image_latents noise timesteps
        i embeds x t).2.head?
      = some (.unetCall (latentModelInput coll (cfgEnabled g) ch mask mil x t)
          t embeds none) ∧
    latentModelInput coll (cfgEnabled g) ch mask mil x t
      = (if ch == 9 then
          catChannels (catChannels (coll.scale_model_input x t) (mask.getD []))
            (mil.getD [])
         else coll.scale_model_input x t) ∧
    (ch ≠ 9 →
      (latentModelInput coll (cfgEnabled g) ch mask mil x t).length
        = x.length) := by
  have hcfg : cfgEnabled g = false := by
    simp only [cfgEnabled, decide_eq_false_iff_not, not_lt]
    exact hg
  have hlmi : latentModelInput coll (cfgEnabled g) ch mask mil x t
      = (if ch == 9 then
          catChannels (catChannels (coll.scale_model_input x t) (mask.getD []))
            (mil.getD [])
         else coll.scale_model_input x t) := by
    simp only [latentModelInput, hcfg, Bool.false_eq_true, if_false]
  refine ⟨hcfg, ?_, ?_, ?_, hlmi, ?_⟩
  · simp [encode_prompt, hcfg, hneg]
  · rw [length_expandPerPrompt, List.length_map, promptList_length prompt hp]
  · simp [do_denoise, denoiseCore, predictNoiseRaw]
  · intro hch
    rw [hlmi, if_neg (by simpa using hch), hscale]

/-- Witness for C5: concrete single-prompt invocation at
`guidance_scale = 1`. -/
theorem cfg_disabled_no_doubling_witness :
    cfgEnabled 1 = false ∧
    encode_prompt collZero.encode_one (.str "p") 1 (cfgEnabled 1) none
      = .ok (expandPerPrompt 1 ((promptList (.str "p")).map collZero.encode_one)) ∧
    (expandPerPrompt 1 ((promptList (.str "p")).map collZero.encode_one)).length
      = promptBatchSize (.str "p") * 1 ∧
    (do_denoise collZero (cfgEnabled 1) false false false false
        1 0 1 [] 4 none none none [[0]] [[0]] [10] 0 [[0]] [[1]] 10).2.head?
      = some (.unetCall (latentModelInput collZero (cfgEnabled 1) 4 none none [[1]] 10)
          10 [[0]] none) ∧
    latentModelInput collZero (cfgEnabled 1) 4 none none [[1]] 10
      = (if 4 == 9 then
          catChannels (catChannels (collZero.scale_model_input [[1]] 10)
            ((none : Option BTensor).getD [])) ((none : Option BTensor).getD [])
         else collZero.scale_model_input [[1]] 10) ∧
    ((4 : Nat) ≠ 9 →
      (latentModelInput collZero (cfgEnabled 1) 4 none none [[1]] 10).length
        = ([[1]] : BTensor).length) :=
  cfg_disabled_no_doubling collZero (.str "p") none 1 1 false false false
    0 1 [] 4 none none none [[0]] [[0]] [10] 0 [[0]] [[1]] 10
    le_rfl (by decide) rfl (fun _ _ => rfl)

/-- C1: with classifier-free guidance enabled (`guidance_scale > 1`),
the batched embedding produced by `_encode_prompt` has batch dimension
exactly twice the conditional-only batch and is ordered
[unconditional, conditional]; the raw noise prediction likewise has the
doubled batch dimension; the combined per-step noise prediction — the
tensor the scheduler step consumes — is
`uncond + guidance_scale * (cond - uncond)`, where `uncond` and `cond`
are the first and second batch halves of the raw denoiser output. -/
theorem cfg_layout_and_combine
    (coll : Collab) (ps ns : List String) (nipp : Nat) (g : ℚ)
    (hasControlnet guess_mode : Bool) (cscale : ℚ) (keep : List ℚ)
    (ch : Nat) (mask mil cimage : Option BTensor) (i : Nat)
    (embeds x : BTensor) (t : Int) (b j : Nat)
    (hg : 1 < g) (hlen : ns.length = ps.length) (hch : ch ≠ 9)
    (hscale : ∀ a u, (coll.scale_model_input a u).length = a.length)
    (hunet : ∀ a u c r, (coll.unet_net a u c r).length = a.length) :
    cfgEnabled g = true ∧
    encode_prompt coll.encode_one (.listP ps) nipp (cfgEnabled g)
        (some (.listP ns))
      = .ok (expandPerPrompt nipp (ns.map coll.encode_one)
          ++ expandPerPrompt nipp (ps.map coll.encode_one)) ∧
    (expandPerPrompt nipp (ns.map coll.encode_one)
        ++ expandPerPrompt nipp (ps.map coll.encode_one)).length
      = 2 * (ps.length * nipp) ∧
    (rawNoisePred coll hasControlnet guess_mode (cfgEnabled g) cscale keep
        cimage i ch mask mil embeds x t).length = 2 * x.length ∧
    (denoiseCore coll (cfgEnabled g) false hasControlnet guess_mode false
        g 0 cscale keep ch mask mil cimage i embeds x t).1
      = coll.sched_step
          (cfgCombine g (rawNoisePred coll hasControlnet guess_mode
            (cfgEnabled g) cscale keep cimage i ch mask mil embeds x t)) t x ∧
    (b < x.length →
      j < ((rawNoisePred coll hasControlnet guess_mode (cfgEnabled g) cscale
        keep cimage i ch mask mil embeds x t).getD b []).length →
      j < ((rawNoisePred coll hasControlnet guess_mode (cfgEnabled g) cscale
        keep cimage i ch mask mil embeds x t).getD (x.length + b) []).length →
      getV (cfgCombine g (rawNoisePred coll hasControlnet guess_mode
          (cfgEnabled g) cscale keep cimage i ch mask mil embeds x t)) b j
        = getV (rawNoisePred coll hasControlnet guess_mode (cfgEnabled g)
            cscale keep cimage i ch mask mil embeds x t) b j
          + g * (getV (rawNoisePred coll hasControlnet guess_mode (cfgEnabled g)
              cscale keep cimage i ch mask mil embeds x t) (x.length + b) j
            - getV (rawNoisePred coll hasControlnet guess_mode (cfgEnabled g)
                cscale keep cimage i ch mask mil embeds x t) b j)) := by
  have hcfg : cfgEnabled g = true := by
    simp only [cfgEnabled, decide_eq_true_eq]
    exact hg
  have hlmiLen : (latentModelInput coll (cfgEnabled g) ch mask mil x t).length
      = 2 * x.length := by
    simp only [latentModelInput, hcfg, if_true]
    rw [if_neg (by simpa using hch), hscale, List.length_append]
    omega
  have hraw : (rawNoisePred coll hasControlnet guess_mode (cfgEnabled g) cscale
      keep cimage i ch mask mil embeds x t).length = 2 * x.length := by
    rw [rawNoisePred]
    cases hasControlnet <;> simp [predictNoiseRaw, hunet, hlmiLen]
  refine ⟨hcfg, ?_, ?_, hraw, ?_, ?_⟩
  · simp [encode_prompt, hcfg, negPromptList, promptBatchSize, promptList, hlen]
  · simp only [List.length_append, length_expandPerPrompt, List.length_map,
      hlen]
    ring
  · simp [denoiseCore, applySag, hcfg, rawNoisePred]
  · intro hb hj1 hj2
    exact cfgCombine_getV g _ x.length hraw b j hb hj1 hj2

/-- Witness for C1: one prompt with one negative prompt, CFG scale 2,
one-element latent batch. -/
theorem cfg_layout_and_combine_witness :
    cfgEnabled 2 = true ∧
    encode_prompt collZero.encode_one (.listP ["p"]) 1 (cfgEnabled 2)
        (some (.listP ["n"]))
      = .ok (expandPerPrompt 1 ((["n"] : List String).map collZero.encode_one)
          ++ expandPerPrompt 1 ((["p"] : List String).map collZero.encode_one)) ∧
    (expandPerPrompt 1 ((["n"] : List String).map collZero.encode_one)
        ++ expandPerPrompt 1 ((["p"] : List String).map collZero.encode_one)).length
      = 2 * ((["p"] : List String).length * 1) ∧
    (rawNoisePred collZero false false (cfgEnabled 2) 1 [] none 0 4 none none
        [[0], [0]] [[1]] 5).length = 2 * ([[1]] : BTensor).length ∧
    (denoiseCore collZero (cfgEnabled 2) false false false false
        2 0 1 [] 4 none none none 0 [[0], [0]] [[1]] 5).1
      = collZero.sched_step
          (cfgCombine 2 (rawNoisePred collZero false false
            (cfgEnabled 2) 1 [] none 0 4 none none [[0], [0]] [[1]] 5)) 5 [[1]] ∧
    (0 < ([[1]] : BTensor).length →
      0 < ((rawNoisePred collZero false false (cfgEnabled 2) 1
        [] none 0 4 none none [[0], [0]] [[1]] 5).getD 0 []).length →
      0 < ((rawNoisePred collZero false false (cfgEnabled 2) 1
        [] none 0 4 none none [[0], [0]] [[1]] 5).getD (([[1]] : BTensor).length + 0) []).length →
      getV (cfgCombine 2 (rawNoisePred collZero false false
          (cfgEnabled 2) 1 [] none 0 4 none none [[0], [0]] [[1]] 5)) 0 0
        = getV (rawNoisePred collZero false false (cfgEnabled 2)
            1 [] none 0 4 none none [[0], [0]] [[1]] 5) 0 0
          + 2 * (getV (rawNoisePred collZero false false (cfgEnabled 2)
              1 [] none 0 4 none none [[0], [0]] [[1]] 5) (([[1]] : BTensor).length + 0) 0
            - getV (rawNoisePred collZero false false (cfgEnabled 2)
                1 [] none 0 4 none none [[0], [0]] [[1]] 5) 0 0)) :=
  cfg_layout_and_combine collZero ["p"] ["n"] 1 2 false false 1 [] 4
    none none none 0 [[0], [0]] [[1]] 5 0 0
    (by norm_num) rfl (by decide) (fun _ _ => rfl) (fun _ _ _ _ => rfl)

/-- C4: with a structural-control adapter present, guess mode on and
classifier-free guidance enabled, the control adapter is invoked exactly
once per step, on the scaled conditional-only latent `x` with the
conditional embedding half, and each residual is prefixed by a
same-shape zero tensor (the unconditional half) before the full-batch
denoiser call receives it. -/
theorem guess_mode_conditional_controlnet
    (coll : Collab) (do_sag is_kdiffusion : Bool) (g sas cscale : ℚ)
    (keep : List ℚ) (ch : Nat) (mask mil cimage : Option BTensor)
    (image_latents noise : BTensor) (timesteps : List Int) (i : Nat)
    (embeds uncondE condE x : BTensor) (t : Int)
    (hg : 1 < g) :
    (do_denoise coll (cfgEnabled g) do_sag true true is_kdiffusion
        g sas cscale keep ch mask mil cimage image_latents noise timesteps
        i embeds x t).2.take 2
      = [.controlnetCall (coll.scale_model_input x t) t (chunkSnd embeds)
           (cscale * keep.getD i 0),
         .unetCall (latentModelInput coll (cfgEnabled g) ch mask mil x t) t
           embeds
           (some ((coll.controlnet_net (coll.scale_model_input x t) t
               (chunkSnd embeds) cimage (cscale * keep.getD i 0) true).1.map
                 (fun d => zerosLike d ++ d),
             zerosLike (coll.controlnet_net (coll.scale_model_input x t) t
               (chunkSnd embeds) cimage (cscale * keep.getD i 0) true).2
               ++ (coll.controlnet_net (coll.scale_model_input x t) t
                 (chunkSnd embeds) cimage (cscale * keep.getD i 0) true).2))] ∧
    (embeds = uncondE ++ condE → uncondE.length = condE.length →
      chunkSnd embeds = condE) ∧
    (∀ d : BTensor, (zerosLike d).length = d.length ∧
      (zerosLike d).map List.length = d.map List.length ∧
      ∀ r ∈ zerosLike d, ∀ v ∈ r, v = 0) := by
  have hcfg : cfgEnabled g = true := by
    simp only [cfgEnabled, decide_eq_true_eq]
    exact hg
  refine ⟨?_, ?_, ?_⟩
  · simp [do_denoise, denoiseCore, predictNoiseRaw, hcfg]
  · intro he hl
    rw [he]
    exact chunkSnd_append _ _ hl
  · intro d
    refine ⟨by simp [zerosLike], ?_, ?_⟩
    · simp [zerosLike, List.map_map, Function.comp_def]
    · intro r hr v hv
      simp only [zerosLike, List.mem_map] at hr
      obtain ⟨r0, _, hr0⟩ := hr
      subst hr0
      simp only [List.mem_map] at hv
      obtain ⟨_, _, hv0⟩ := hv
      exact hv0.symm

/-- Witness for C4 on a concrete step. -/
theorem guess_mode_conditional_controlnet_witness :
    (do_denoise collZero (cfgEnabled 2) false true true false
        2 0 1 [1] 4 none none none [[0]] [[0]] [10] 0 [[1], [2]] [[3]] 10).2.take 2
      = [.controlnetCall (collZero.scale_model_input [[3]] 10) 10
           (chunkSnd [[1], [2]]) (1 * ([1] : List ℚ).getD 0 0),
         .unetCall (latentModelInput collZero (cfgEnabled 2) 4 none none [[3]] 10)
           10 [[1], [2]]
           (some ((collZero.controlnet_net (collZero.scale_model_input [[3]] 10) 10
               (chunkSnd [[1], [2]]) none (1 * ([1] : List ℚ).getD 0 0) true).1.map
                 (fun d => zerosLike d ++ d),
             zerosLike (collZero.controlnet_net (collZero.scale_model_input [[3]] 10) 10
               (chunkSnd [[1], [2]]) none (1 * ([1] : List ℚ).getD 0 0) true).2
               ++ (collZero.controlnet_net (collZero.scale_model_input [[3]] 10) 10
                 (chunkSnd [[1], [2]]) none (1 * ([1] : List ℚ).getD 0 0) true).2))] ∧
    (([[1], [2]] : BTensor) = [[1]] ++ [[2]] →
      ([[1]] : BTensor).length = ([[2]] : BTensor).length →
      chunkSnd [[1], [2]] = [[2]]) ∧
    (∀ d : BTensor, (zerosLike d).length = d.length ∧
      (zerosLike d).map List.length = d.map List.length ∧
      ∀ r ∈ zerosLike d, ∀ v ∈ r, v = 0) :=
  guess_mode_conditional_controlnet collZero false false 2 0 1 [1] 4
    none none none [[0]] [[0]] [10] 0 [[1], [2]] [[1]] [[2]] [[3]] 10
    (by norm_num)

/-- Entrywise reading of the compositing primitive:
`(1 - m) * l + m * xv`. -/
theorem combineMLX_getD : ∀ (m l xv : List ℚ) (j : Nat),
    j < m.length → j < l.length → j < xv.length →
    (combineMLX m l xv).getD j 0
      = (1 - m.getD j 0) * l.getD j 0 + m.getD j 0 * xv.getD j 0
  | _ :: _, _ :: _, _ :: _, 0, _, _, _ => by simp [combineMLX]
  | _ :: ms, _ :: ls, _ :: xs, j + 1, hm, hl, hx => by
      simp only [combineMLX, List.getD_cons_succ]
      exact combineMLX_getD ms ls xs j (by simpa using hm) (by simpa using hl)
        (by simpa using hx)
  | [], _, _, j, hm, _, _ => by simp at hm
  | _ :: _, [], _, j, _, hl, _ => by simp at hl
  | _ :: _, _ :: _, [], j, _, _, hx => by simp at hx

theorem getD_map_row (f : List ℚ → List ℚ) (y : BTensor) (b : Nat)
    (hb : b < y.length) :
    (y.map f).getD b [] = f (y.getD b []) := by
  rw [List.getD_eq_getElem _ _ (by rwa [List.length_map]),
    List.getD_eq_getElem _ _ hb, List.getElem_map]

/-- Entrywise reading of the broadcast compositing
`(1 - mask) * known + mask * x`. -/
theorem broadcastCombine_getV (mm ll y : BTensor) (b j : Nat)
    (hb : b < y.length) (hm : j < (mm.headD []).length)
    (hl : j < (ll.headD []).length) (hy : j < (y.getD b []).length) :
    getV (broadcastCombine mm ll y) b j
      = (1 - getV mm 0 j) * getV ll 0 j + getV mm 0 j * getV y b j := by
  have hhm : mm.headD [] = mm.getD 0 [] := by cases mm <;> rfl
  have hhl : ll.headD [] = ll.getD 0 [] := by cases ll <;> rfl
  simp only [getV, broadcastCombine]
  rw [getD_map_row _ _ _ hb, combineMLX_getD _ _ _ j hm hl hy, hhm, hhl]

/-- C3: with an inpainting mask and a 4-channel denoiser, each step
of `do_denoise` ends by compositing
`(1 - mask) * renoised_known + mask * step_output`, where the
known-region latent is re-noised to the next scheduled timestep on every
step but the last and used un-noised on the last step; with any other
channel count, or with no mask, the step output is returned unchanged. -/
theorem inpaint_mask_compositing
    (coll : Collab) (do_cfg do_sag hasControlnet guess_mode is_kdiffusion : Bool)
    (g sas cscale : ℚ) (keep : List ℚ) (mask : BTensor)
    (mil cimage : Option BTensor) (image_latents noise : BTensor)
    (timesteps : List Int) (i : Nat) (embeds x : BTensor) (t : Int)
    (ch : Nat) (mm ll y : BTensor) (b j : Nat)
    (hch : ch ≠ 4) :
    (do_denoise coll do_cfg do_sag hasControlnet guess_mode is_kdiffusion
        g sas cscale keep 4 (some mask) mil cimage image_latents noise
        timesteps i embeds x t).1
      = maskStage coll image_latents noise timesteps i mask
          (denoiseCore coll do_cfg do_sag hasControlnet guess_mode
            is_kdiffusion g sas cscale keep 4 (some mask) mil cimage
            i embeds x t).1 ∧
    (∀ y', maskStage coll image_latents noise timesteps i mask y'
      = broadcastCombine (coll.pad_tensor (mask.take 1))
          (if i < timesteps.length - 1 then
            coll.add_noise (image_latents.take 1) noise (timesteps.getD (i + 1) 0)
           else image_latents.take 1) y') ∧
    (b < y.length → j < (mm.headD []).length → j < (ll.headD []).length →
      j < (y.getD b []).length →
      getV (broadcastCombine mm ll y) b j
        = (1 - getV mm 0 j) * getV ll 0 j + getV mm 0 j * getV y b j) ∧
    (do_denoise coll do_cfg do_sag hasControlnet guess_mode is_kdiffusion
        g sas cscale keep ch (some mask) mil cimage image_latents noise
        timesteps i embeds x t).1
      = (denoiseCore coll do_cfg do_sag hasControlnet guess_mode is_kdiffusion
          g sas cscale keep ch (some mask) mil cimage i embeds x t).1 ∧
    (do_denoise coll do_cfg do_sag hasControlnet guess_mode is_kdiffusion
        g sas cscale keep ch none mil cimage image_latents noise
        timesteps i embeds x t).1
      = (denoiseCore coll do_cfg do_sag hasControlnet guess_mode is_kdiffusion
          g sas cscale keep ch none mil cimage i embeds x t).1 := by
  refine ⟨rfl, fun y' => rfl, ?_, ?_, rfl⟩
  · intro hb hm hl hy
    exact broadcastCombine_getV mm ll y b j hb hm hl hy
  · simp [do_denoise, hch]

/-- Witness for C3: a two-step schedule at the non-final step 0, with a
concrete mask, and the non-compositing cases at channel count 9. -/
theorem inpaint_mask_compositing_witness :
    (do_denoise collZero false false false false false
        1 0 1 [] 4 (some [[1]]) none none [[2]] [[3]]
        [10, 5] 0 [[0]] [[4]] 10).1
      = maskStage collZero [[2]] [[3]] [10, 5] 0 [[1]]
          (denoiseCore collZero false false false false
            false 1 0 1 [] 4 (some [[1]]) none none
            0 [[0]] [[4]] 10).1 ∧
    (∀ y', maskStage collZero [[2]] [[3]] [10, 5] 0 [[1]] y'
      = broadcastCombine (collZero.pad_tensor (([[1]] : BTensor).take 1))
          (if 0 < ([10, 5] : List Int).length - 1 then
            collZero.add_noise (([[2]] : BTensor).take 1) [[3]]
              (([10, 5] : List Int).getD (0 + 1) 0)
           else ([[2]] : BTensor).take 1) y') ∧
    (0 < ([[4]] : BTensor).length → 0 < (([[1]] : BTensor).headD []).length →
      0 < (([[2]] : BTensor).headD []).length →
      0 < (([[4]] : BTensor).getD 0 []).length →
      getV (broadcastCombine [[1]] [[2]] [[4]]) 0 0
        = (1 - getV [[1]] 0 0) * getV [[2]] 0 0 + getV [[1]] 0 0 * getV [[4]] 0 0) ∧
    (do_denoise collZero false false false false false
        1 0 1 [] 9 (some [[1]]) none none [[2]] [[3]]
        [10, 5] 0 [[0]] [[4]] 10).1
      = (denoiseCore collZero false false false false false
          1 0 1 [] 9 (some [[1]]) none none 0 [[0]] [[4]] 10).1 ∧
    (do_denoise collZero false false false false false
        1 0 1 [] 9 none none none [[2]] [[3]]
        [10, 5] 0 [[0]] [[4]] 10).1
      = (denoiseCore collZero false false false false false
          1 0 1 [] 9 none none none 0 [[0]] [[4]] 10).1 :=
  inpaint_mask_compositing collZero false false false false false
    1 0 1 [] [[1]] none none [[2]] [[3]] [10, 5] 0 [[0]] [[4]] 10
    9 [[1]] [[2]] [[4]] 0 0 (by decide)

/-! ## The denoising loop: cancellation, callbacks, decode-freeness -/

theorem applySag_noDecode (coll : Collab) (do_sag do_cfg : Bool) (s : ℚ)
    (embeds x : BTensor) (t : Int) (raw np : BTensor) :
    (applySag coll do_sag do_cfg s embeds x t raw np).2.any Event.isDecode
      = false := by
  cases do_sag <;> cases do_cfg <;> simp [applySag, Event.isDecode]

theorem predictNoiseRaw_noDecode (coll : Collab)
    (hasControlnet guess_mode do_cfg : Bool) (cscale : ℚ) (keep : List ℚ)
    (cimage : Option BTensor) (i : Nat) (lmi : BTensor)
    (embeds x : BTensor) (t : Int) :
    (predictNoiseRaw coll hasControlnet guess_mode do_cfg cscale
      keep cimage i lmi embeds x t).2.any Event.isDecode = false := by
  cases hasControlnet <;> simp [predictNoiseRaw, Event.isDecode]

theorem do_denoise_cbProj (coll : Collab)
    (do_cfg do_sag hasControlnet guess_mode is_kdiffusion : Bool)
    (g sas cscale : ℚ) (keep : List ℚ) (ch : Nat)
    (mask mil cimage : Option BTensor) (image_latents noise : BTensor)
    (timesteps : List Int) (i : Nat) (embeds x : BTensor) (t : Int) :
    cbProj (do_denoise coll do_cfg do_sag hasControlnet guess_mode
      is_kdiffusion g sas cscale keep ch mask mil cimage image_latents noise
      timesteps i embeds x t).2 = [] := by
  simp only [do_denoise, denoiseCore]
  rw [cbProj_append, predictNoiseRaw_cbProj, applySag_cbProj]
  rfl

theorem do_denoise_noDecode (coll : Collab)
    (do_cfg do_sag hasControlnet guess_mode is_kdiffusion : Bool)
    (g sas cscale : ℚ) (keep : List ℚ) (ch : Nat)
    (mask mil cimage : Option BTensor) (image_latents noise : BTensor)
    (timesteps : List Int) (i : Nat) (embeds x : BTensor) (t : Int) :
    (do_denoise coll do_cfg do_sag hasControlnet guess_mode
      is_kdiffusion g sas cscale keep ch mask mil cimage image_latents noise
      timesteps i embeds x t).2.any Event.isDecode = false := by
  simp only [do_denoise, denoiseCore]
  rw [List.any_append, predictNoiseRaw_noDecode, applySag_noDecode]
  rfl

theorem maskPrepStage_cbProj (coll : Collab) (it : Option BTensor)
    (mi : Option BTensor) (h w : Nat) :
    cbProj (maskPrepStage coll it mi h w).2.2 = [] := by
  cases mi <;> simp [maskPrepStage, cbProj]

theorem maskPrepStage_noDecode (coll : Collab) (it : Option BTensor)
    (mi : Option BTensor) (h w : Nat) :
    (maskPrepStage coll it mi h w).2.2.any Event.isDecode = false := by
  cases mi <;> simp [maskPrepStage, Event.isDecode]

theorem latentPrepStage_cbProj (coll : Collab) (hasControlnet : Bool)
    (it : Option BTensor) (h w : Nat) :
    cbProj (latentPrepStage coll hasControlnet it h w).2 = [] := by
  cases hasControlnet <;> cases it <;> simp [latentPrepStage, cbProj]

theorem latentPrepStage_noDecode (coll : Collab) (hasControlnet : Bool)
    (it : Option BTensor) (h w : Nat) :
    (latentPrepStage coll hasControlnet it h w).2.any Event.isDecode = false := by
  cases hasControlnet <;> cases it <;> simp [latentPrepStage, Event.isDecode]

/-- Master lemma for cancellation in the discrete-scheduler loop: if the
first positive cancellation poll at or after the start index is at step
`k` inside the schedule, the loop returns `none`, its callback record is
exactly the polled steps up to `k`, and it performs no decode. -/
theorem denoiseLoop_cancel (step : Nat → BTensor → Int → BTensor × List Event)
    (cs : Int) (cancel : Nat → Bool) (k : Nat)
    (hstep_cb : ∀ i x t, cbProj (step i x t).2 = [])
    (hstep_dec : ∀ i x t, (step i x t).2.any Event.isDecode = false)
    (hk : cancel k = true) (hkm : (k : Int) % cs = 0) :
    ∀ (ts : List Int) (i : Nat) (x : BTensor),
      i ≤ k → k < i + ts.length →
      (∀ j, i ≤ j → j < k → (j : Int) % cs = 0 → cancel j = false) →
      (denoiseLoop step cs true true cancel ts i x).1 = none ∧
      cbProj (denoiseLoop step cs true true cancel ts i x).2
        = (List.range' i (k - i + 1)).filter
            (fun (j : Nat) => decide ((j : Int) % cs = 0)) ∧
      (denoiseLoop step cs true true cancel ts i x).2.any Event.isDecode
        = false := by
  intro ts
  induction ts with
  | nil =>
      intro i x hik hkl _
      simp only [List.length_nil, Nat.add_zero] at hkl
      omega
  | cons t rest ih =>
      intro i x hik hkl hbefore
      rcases Nat.lt_or_ge i k with hlt | hge
      · -- i < k: the poll at i (if any) is negative, recurse
        have ih1 := ih (i + 1) ((step i x t).1) (by omega)
          (by simp only [List.length_cons] at hkl; omega)
          (fun j hj1 hj2 hj3 => hbefore j (by omega) hj2 hj3)
        have hrange : k - i + 1 = (k - (i + 1) + 1) + 1 := by omega
        by_cases hcs : (i : Int) % cs = 0
        · have hci : cancel i = false := hbefore i le_rfl hlt hcs
          rw [denoiseLoop]
          rw [if_pos hcs, if_neg (by simp [hci])]
          refine ⟨ih1.1, ?_, ?_⟩
          · rw [cbProj_append, cbProj_append, hstep_cb, ih1.2.1]
            conv_rhs => rw [hrange, List.range'_succ, List.filter_cons]
            rw [if_pos (decide_eq_true hcs)]
            rfl
          · rw [List.any_append, List.any_append, hstep_dec, ih1.2.2]
            simp [Event.isDecode]
        · rw [denoiseLoop]
          rw [if_neg hcs]
          refine ⟨ih1.1, ?_, ?_⟩
          · rw [cbProj_append, hstep_cb, ih1.2.1]
            conv_rhs => rw [hrange, List.range'_succ, List.filter_cons]
            rw [if_neg (by simp only [decide_eq_true_eq]; exact hcs)]
            rfl
          · rw [List.any_append, hstep_dec, ih1.2.2]
            rfl
      · -- i = k: the poll fires
        have hieq : i = k := le_antisymm hik hge
        subst hieq
        rw [denoiseLoop]
        rw [if_pos hkm, if_pos (by simp [hk])]
        refine ⟨rfl, ?_, ?_⟩
        · rw [cbProj_append, hstep_cb]
          rw [Nat.sub_self, Nat.zero_add, List.range'_one, List.filter_cons,
            if_pos (decide_eq_true hkm)]
          rfl
        · rw [List.any_append, hstep_dec]
          simp [Event.isDecode]

theorem pipelineStepFn_cbProj (coll : Collab)
    (hasControlnet global_pool_conditions is_kdiffusion : Bool) (ch : Nat)
    (image : Option ImageInput) (mask_image : Option BTensor)
    (height width : Nat) (cscale : ℚ) (guess_mode : Bool) (steps : Nat)
    (g sas strength : ℚ) (te : BTensor) :
    ∀ i x t, cbProj ((pipelineStepFn coll hasControlnet
      global_pool_conditions is_kdiffusion ch image mask_image height width
      cscale guess_mode steps g sas strength te) i x t).2 = [] := by
  intro i x t
  simp only [pipelineStepFn]
  apply do_denoise_cbProj

theorem pipelineStepFn_noDecode (coll : Collab)
    (hasControlnet global_pool_conditions is_kdiffusion : Bool) (ch : Nat)
    (image : Option ImageInput) (mask_image : Option BTensor)
    (height width : Nat) (cscale : ℚ) (guess_mode : Bool) (steps : Nat)
    (g sas strength : ℚ) (te : BTensor) :
    ∀ i x t, ((pipelineStepFn coll hasControlnet
      global_pool_conditions is_kdiffusion ch image mask_image height width
      cscale guess_mode steps g sas strength te) i x t).2.any Event.isDecode
      = false := by
  intro i x t
  simp only [pipelineStepFn]
  apply do_denoise_noDecode

/-- C2: in the discrete-scheduler loop, if the cancellation
predicate first returns true at the poll after step `k` (with `k`
inside the schedule), the invocation returns the null cancellation
result — not an error — no latent decoding takes place, and the
progress callback has fired exactly at the steps `0..k` divisible by
`callback_steps`. -/
theorem cancellation_returns_null
    (coll : Collab) (hasControlnet global_pool_conditions guess_mode : Bool)
    (ch : Nat) (prompt : PromptInput) (negative : Option NegPrompt)
    (image : Option ImageInput) (mask_image : Option BTensor)
    (height width : Nat) (cscale : ℚ) (steps nipp : Nat)
    (g sas strength : ℚ) (output_type : OutputType)
    (cancel : Nat → Bool) (csn : Int) (k : Nat) (te : BTensor)
    (hchk : check_inputs prompt strength (.intV csn) = .ok ())
    (henc : encode_prompt coll.encode_one prompt nipp (cfgEnabled g) negative
      = .ok te)
    (hk : cancel k = true) (hkm : (k : Int) % csn = 0)
    (hkl : k < (get_timesteps_spec (coll.sched_timesteps steps) steps strength
      (pipelineFromNoiseFlag image hasControlnet)).1.length)
    (hbefore : ∀ j, j < k → (j : Int) % csn = 0 → cancel j = false) :
    (pipelineCall coll hasControlnet global_pool_conditions false ch prompt
        negative image mask_image height width cscale guess_mode steps g sas
        strength nipp output_type true true cancel (.intV csn)).1
      = .ok .cancelled ∧
    hasDecode (pipelineCall coll hasControlnet global_pool_conditions false ch
        prompt negative image mask_image height width cscale guess_mode steps
        g sas strength nipp output_type true true cancel (.intV csn)).2
      = false ∧
    cbProj (pipelineCall coll hasControlnet global_pool_conditions false ch
        prompt negative image mask_image height width cscale guess_mode steps
        g sas strength nipp output_type true true cancel (.intV csn)).2
      = (List.range (k + 1)).filter
          (fun (j : Nat) => decide ((j : Int) % csn = 0)) := by
  have master := denoiseLoop_cancel
    (pipelineStepFn coll hasControlnet global_pool_conditions false ch image
      mask_image height width cscale guess_mode steps g sas strength te)
    csn cancel k
    (pipelineStepFn_cbProj coll hasControlnet global_pool_conditions false ch
      image mask_image height width cscale guess_mode steps g sas strength te)
    (pipelineStepFn_noDecode coll hasControlnet global_pool_conditions false ch
      image mask_image height width cscale guess_mode steps g sas strength te)
    hk hkm
    (get_timesteps_spec (coll.sched_timesteps steps) steps strength
      (pipelineFromNoiseFlag image hasControlnet)).1
    0
    (latentPrepStage coll hasControlnet
      (preprocessStage coll hasControlnet image height width).2.2
      (preprocessStage coll hasControlnet image height width).1
      (preprocessStage coll hasControlnet image height width).2.1).1.1
    (Nat.zero_le k) (by simpa using hkl)
    (fun j _ hj2 hj3 => hbefore j hj2 hj3)
  obtain ⟨h1, h2, h3⟩ := master
  simp only [pipelineCall, callbackStepsInt, hchk, henc, Bool.false_eq_true,
    if_false, h1]
  refine ⟨trivial, ?_, ?_⟩
  · simp only [hasDecode, List.any_append]
    rw [maskPrepStage_noDecode, latentPrepStage_noDecode, h3]
    rfl
  · rw [cbProj_append, cbProj_append, maskPrepStage_cbProj,
      latentPrepStage_cbProj, h2]
    simp [List.range_eq_range']

/-- Witness for C2: three steps, `callback_steps = 1`, cancellation at
the poll after step 1; the call is cancelled with callbacks at steps 0
and 1 and no decode. -/
theorem cancellation_returns_null_witness :
    (pipelineCall collZero false false false 4 (.str "p") none none none
        8 8 1 false 3 1 0 1 1 .pil true true
        (fun j => decide (j = 1)) (.intV 1)).1 = .ok .cancelled ∧
    hasDecode (pipelineCall collZero false false false 4 (.str "p") none none
        none 8 8 1 false 3 1 0 1 1 .pil true true
        (fun j => decide (j = 1)) (.intV 1)).2 = false ∧
    cbProj (pipelineCall collZero false false false 4 (.str "p") none none
        none 8 8 1 false 3 1 0 1 1 .pil true true
        (fun j => decide (j = 1)) (.intV 1)).2
      = (List.range (1 + 1)).filter
          (fun (j : Nat) => decide ((j : Int) % 1 = 0)) :=
  cancellation_returns_null collZero false false false 4 (.str "p") none none
    none 8 8 1 3 1 1 0 1 .pil (fun j => decide (j = 1)) 1 1 [[0]]
    rfl rfl (by decide) (by decide) (by decide) (by decide)

/-! ## Trace projections that ignore loop-internal events -/

theorem predictNoiseRaw_filterMap_nil {α : Type} (f : Event → Option α)
    (hunet : ∀ a t c r, f (.unetCall a t c r) = none)
    (hctrl : ∀ a t c s, f (.controlnetCall a t c s) = none)
    (coll : Collab) (hasControlnet guess_mode do_cfg : Bool) (cscale : ℚ)
    (keep : List ℚ) (cimage : Option BTensor) (i : Nat) (lmi : BTensor)
    (embeds x : BTensor) (t : Int) :
    ((predictNoiseRaw coll hasControlnet guess_mode do_cfg cscale keep cimage
      i lmi embeds x t).2).filterMap f = [] := by
  cases hasControlnet <;> simp [predictNoiseRaw, hunet, hctrl]

theorem applySag_filterMap_nil {α : Type} (f : Event → Option α)
    (hunet : ∀ a t c r, f (.unetCall a t c r) = none)
    (coll : Collab) (do_sag do_cfg : Bool) (s : ℚ)
    (embeds x : BTensor) (t : Int) (raw np : BTensor) :
    ((applySag coll do_sag do_cfg s embeds x t raw np).2).filterMap f = [] := by
  cases do_sag <;> cases do_cfg <;> simp [applySag, hunet]

theorem do_denoise_filterMap_nil {α : Type} (f : Event → Option α)
    (hunet : ∀ a t c r, f (.unetCall a t c r) = none)
    (hctrl : ∀ a t c s, f (.controlnetCall a t c s) = none)
    (coll : Collab)
    (do_cfg do_sag hasControlnet guess_mode is_kdiffusion : Bool)
    (g sas cscale : ℚ) (keep : List ℚ) (ch : Nat)
    (mask mil cimage : Option BTensor) (image_latents noise : BTensor)
    (timesteps : List Int) (i : Nat) (embeds x : BTensor) (t : Int) :
    ((do_denoise coll do_cfg do_sag hasControlnet guess_mode is_kdiffusion
      g sas cscale keep ch mask mil cimage image_latents noise timesteps
      i embeds x t).2).filterMap f = [] := by
  simp only [do_denoise, denoiseCore]
  rw [List.filterMap_append,
    predictNoiseRaw_filterMap_nil f hunet hctrl,
    applySag_filterMap_nil f hunet]
  rfl

theorem pipelineStepFn_filterMap_nil {α : Type} (f : Event → Option α)
    (hunet : ∀ a t c r, f (.unetCall a t c r) = none)
    (hctrl : ∀ a t c s, f (.controlnetCall a t c s) = none)
    (coll : Collab)
    (hasControlnet global_pool_conditions is_kdiffusion : Bool) (ch : Nat)
    (image : Option ImageInput) (mask_image : Option BTensor)
    (height width : Nat) (cscale : ℚ) (guess_mode : Bool) (steps : Nat)
    (g sas strength : ℚ) (te : BTensor) :
    ∀ i x t, (((pipelineStepFn coll hasControlnet global_pool_conditions
      is_kdiffusion ch image mask_image height width cscale guess_mode steps
      g sas strength te) i x t).2).filterMap f = [] := by
  intro i x t
  simp only [pipelineStepFn]
  apply do_denoise_filterMap_nil f hunet hctrl

theorem denoiseLoop_filterMap_nil {α : Type} (f : Event → Option α)
    (step : Nat → BTensor → Int → BTensor × List Event) (cs : Int)
    (hasCb hasCancel : Bool) (cancel : Nat → Bool)
    (hcb : ∀ i, f (Event.callbackCall i) = none)
    (hstep : ∀ i x t, ((step i x t).2).filterMap f = []) :
    ∀ (ts : List Int) (i : Nat) (x : BTensor),
      ((denoiseLoop step cs hasCb hasCancel cancel ts i x).2).filterMap f
        = [] := by
  intro ts
  induction ts with
  | nil => intro i x; rfl
  | cons t rest ih =>
      intro i x
      rw [denoiseLoop]
      by_cases hcs : (i : Int) % cs = 0
      · rw [if_pos hcs]
        by_cases hcan : (hasCancel && cancel i) = true
        · rw [if_pos hcan, List.filterMap_append, hstep]
          cases hasCb <;> simp [hcb]
        · rw [if_neg hcan, List.filterMap_append, List.filterMap_append,
            hstep, ih]
          cases hasCb <;> simp [hcb]
      · rw [if_neg hcs, List.filterMap_append, hstep, ih]
        rfl

/-- C10: when the image argument is a PIL image, its own pixel size
replaces the caller-supplied `height` and `width`: mask preparation and
latent preparation each run exactly once, at the image's
`(height, width)`, and every latent decode in the invocation uses the
image's dimensions — whatever `height` and `width` the caller passed. -/
theorem pil_image_overrides_dimensions
    (coll : Collab)
    (hasControlnet global_pool_conditions is_kdiffusion : Bool) (ch : Nat)
    (prompt : PromptInput) (negative : Option NegPrompt)
    (w h : Nat) (d : BTensor) (mi : BTensor) (height width : Nat)
    (cscale : ℚ) (guess_mode : Bool) (steps : Nat) (g sas strength : ℚ)
    (nipp : Nat) (output_type : OutputType) (hasCallback hasCancel : Bool)
    (cancel : Nat → Bool) (callback_steps : CallbackSteps) (te : BTensor)
    (hchk : check_inputs prompt strength callback_steps = .ok ())
    (henc : encode_prompt coll.encode_one prompt nipp (cfgEnabled g) negative
      = .ok te) :
    maskPrepDims (pipelineCall coll hasControlnet global_pool_conditions
        is_kdiffusion ch prompt negative (some (.pil w h d)) (some mi) height
        width cscale guess_mode steps g sas strength nipp output_type
        hasCallback hasCancel cancel callback_steps).2 = [(h, w)] ∧
    latentPrepDims (pipelineCall coll hasControlnet global_pool_conditions
        is_kdiffusion ch prompt negative (some (.pil w h d)) (some mi) height
        width cscale guess_mode steps g sas strength nipp output_type
        hasCallback hasCancel cancel callback_steps).2 = [(h, w)] ∧
    (∀ p ∈ decodeDims (pipelineCall coll hasControlnet global_pool_conditions
        is_kdiffusion ch prompt negative (some (.pil w h d)) (some mi) height
        width cscale guess_mode steps g sas strength nipp output_type
        hasCallback hasCancel cancel callback_steps).2, p = (h, w)) := by
  have hm := denoiseLoop_filterMap_nil maskPrepProj
    (pipelineStepFn coll hasControlnet global_pool_conditions is_kdiffusion ch
      (some (.pil w h d)) (some mi) height width cscale guess_mode steps g sas
      strength te)
    (callbackStepsInt callback_steps) hasCallback hasCancel
    cancel (fun _ => rfl)
    (pipelineStepFn_filterMap_nil maskPrepProj (fun _ _ _ _ => rfl)
      (fun _ _ _ _ => rfl) coll hasControlnet global_pool_conditions
      is_kdiffusion ch (some (.pil w h d)) (some mi) height width cscale
      guess_mode steps g sas strength te)
  have hl := denoiseLoop_filterMap_nil latentPrepProj
    (pipelineStepFn coll hasControlnet global_pool_conditions is_kdiffusion ch
      (some (.pil w h d)) (some mi) height width cscale guess_mode steps g sas
      strength te)
    (callbackStepsInt callback_steps) hasCallback hasCancel
    cancel (fun _ => rfl)
    (pipelineStepFn_filterMap_nil latentPrepProj (fun _ _ _ _ => rfl)
      (fun _ _ _ _ => rfl) coll hasControlnet global_pool_conditions
      is_kdiffusion ch (some (.pil w h d)) (some mi) height width cscale
      guess_mode steps g sas strength te)
  have hd := denoiseLoop_filterMap_nil decodeProj
    (pipelineStepFn coll hasControlnet global_pool_conditions is_kdiffusion ch
      (some (.pil w h d)) (some mi) height width cscale guess_mode steps g sas
      strength te)
    (callbackStepsInt callback_steps) hasCallback hasCancel
    cancel (fun _ => rfl)
    (pipelineStepFn_filterMap_nil decodeProj (fun _ _ _ _ => rfl)
      (fun _ _ _ _ => rfl) coll hasControlnet global_pool_conditions
      is_kdiffusion ch (some (.pil w h d)) (some mi) height width cscale
      guess_mode steps g sas strength te)
  simp only [pipelineCall, hchk, henc]
  cases hasControlnet <;> cases is_kdiffusion <;>
    refine ⟨?_, ?_, ?_⟩ <;>
    · split <;>
      · try split
        all_goals
          simp [maskPrepDims, latentPrepDims, decodeDims, preprocessStage,
            maskPrepStage, latentPrepStage, List.filterMap_append, hm, hl, hd,
            maskPrepProj, latentPrepProj, decodeProj]

/-- Witness for C10: a 16×24 PIL image with caller-supplied 512×512. -/
theorem pil_image_overrides_dimensions_witness :
    maskPrepDims (pipelineCall collZero false false false 4 (.str "p") none
        (some (.pil 16 24 [[0]])) (some [[1]]) 512 512 1 false 2 1 0 1 1 .pil
        false false (fun _ => false) (.intV 1)).2 = [(24, 16)] ∧
    latentPrepDims (pipelineCall collZero false false false 4 (.str "p") none
        (some (.pil 16 24 [[0]])) (some [[1]]) 512 512 1 false 2 1 0 1 1 .pil
        false false (fun _ => false) (.intV 1)).2 = [(24, 16)] ∧
    (∀ p ∈ decodeDims (pipelineCall collZero false false false 4 (.str "p")
        none (some (.pil 16 24 [[0]])) (some [[1]]) 512 512 1 false 2 1 0 1 1
        .pil false false (fun _ => false) (.intV 1)).2, p = (24, 16)) :=
  pil_image_overrides_dimensions collZero false false false 4 (.str "p") none
    16 24 [[0]] [[1]] 512 512 1 false 2 1 0 1 1 .pil false false
    (fun _ => false) (.intV 1) [[0]] rfl rfl

/-- The negative-prompt batch-size mismatch condition of
`_encode_prompt` (lines 168-173): it can only arise for a list-valued
negative prompt of the wrong length. -/
def negMismatch (prompt : PromptInput) (negative : Option NegPrompt) : Bool :=
  match negative with
  | some (.listP l) => l.length != promptBatchSize prompt
  | _ => false

theorem check_inputs_ok (prompt : PromptInput) (strength : ℚ)
    (cb : CallbackSteps) (hok : check_inputs prompt strength cb = .ok ()) :
    prompt ≠ .other ∧ ¬(strength < 0 ∨ strength > 1) ∧
    ∃ n, cb = .intV n ∧ 0 < n := by
  by_cases hp : prompt = .other
  · simp [check_inputs, hp] at hok
  by_cases hs : strength < 0 ∨ strength > 1
  · simp [check_inputs, hp, hs] at hok
  refine ⟨hp, hs, ?_⟩
  cases cb with
  | intV n =>
      by_cases hn : n ≤ 0
      · simp [check_inputs, hp, hs, hn] at hok
      · exact ⟨n, rfl, by omega⟩
  | noneV => simp [check_inputs, hp, hs] at hok
  | notInt => simp [check_inputs, hp, hs] at hok

theorem encode_prompt_mismatch (encOne : String → List ℚ)
    (prompt : PromptInput) (nipp : Nat) (docfg : Bool)
    (negative : Option NegPrompt) (h : negMismatch prompt negative = true) :
    encode_prompt encOne prompt nipp docfg negative
      = .error .negativeBatchMismatch := by
  cases negative with
  | none => simp [negMismatch] at h
  | some np =>
      cases np with
      | str s => simp [negMismatch] at h
      | listP l =>
          simp only [negMismatch, bne_iff_ne, ne_eq] at h
          have h2 : promptBatchSize prompt ≠ l.length := fun hh => h hh.symm
          simp [encode_prompt, negPromptList, h2]

/-- C7: each of the four validation failures — prompt of the wrong
type, strength outside `[0, 1]`, `callback_steps` not a positive
integer, and a negative-prompt batch size disagreeing with the prompt
batch size — makes the invocation raise a `ValueError` synchronously,
before any denoiser, control-adapter or codec invocation and before the
loop starts: the event trace is empty. -/
theorem validation_raises_before_networks
    (coll : Collab)
    (hasControlnet global_pool_conditions is_kdiffusion : Bool) (ch : Nat)
    (prompt : PromptInput) (negative : Option NegPrompt)
    (image : Option ImageInput) (mask_image : Option BTensor)
    (height width : Nat) (cscale : ℚ) (guess_mode : Bool) (steps : Nat)
    (g sas strength : ℚ) (nipp : Nat) (output_type : OutputType)
    (hasCallback hasCancel : Bool) (cancel : Nat → Bool)
    (callback_steps : CallbackSteps)
    (hbad : prompt = .other ∨ strength < 0 ∨ strength > 1 ∨
      callback_steps = .noneV ∨ callback_steps = .notInt ∨
      (∃ n, callback_steps = .intV n ∧ n ≤ 0) ∨
      negMismatch prompt negative = true) :
    (∃ e, (pipelineCall coll hasControlnet global_pool_conditions
        is_kdiffusion ch prompt negative image mask_image height width cscale
        guess_mode steps g sas strength nipp output_type hasCallback hasCancel
        cancel callback_steps).1 = .error e) ∧
    (pipelineCall coll hasControlnet global_pool_conditions is_kdiffusion ch
        prompt negative image mask_image height width cscale guess_mode steps
        g sas strength nipp output_type hasCallback hasCancel cancel
        callback_steps).2 = [] := by
  cases hchk : check_inputs prompt strength callback_steps with
  | error e =>
      constructor
      · exact ⟨e, by simp [pipelineCall, hchk]⟩
      · simp [pipelineCall, hchk]
  | ok u =>
      obtain ⟨hp, hs, n, hcb, hn⟩ := check_inputs_ok prompt strength
        callback_steps (by cases u; exact hchk)
      have hmm : negMismatch prompt negative = true := by
        rcases hbad with hb | hb | hb | hb | hb | ⟨m, hm1, hm2⟩ | hb
        · exact absurd hb hp
        · exact absurd (Or.inl hb) hs
        · exact absurd (Or.inr hb) hs
        · rw [hb] at hcb; exact absurd hcb (by simp)
        · rw [hb] at hcb; exact absurd hcb (by simp)
        · rw [hm1] at hcb
          have hmn : m = n := by simpa using hcb
          omega
        · exact hb
      have henc := encode_prompt_mismatch coll.encode_one prompt nipp
        (cfgEnabled g) negative hmm
      constructor
      · exact ⟨.negativeBatchMismatch, by
          cases u; simp [pipelineCall, hchk, henc]⟩
      · cases u; simp [pipelineCall, hchk, henc]

/-- Witness for C7: out-of-range strength makes the call error with an
empty trace. -/
theorem validation_raises_before_networks_witness :
    (∃ e, (pipelineCall collZero false false false 4 (.str "p") none none
        none 8 8 1 false 3 1 0 2 1 .pil false false (fun _ => false)
        (.intV 1)).1 = .error e) ∧
    (pipelineCall collZero false false false 4 (.str "p") none none none
        8 8 1 false 3 1 0 2 1 .pil false false (fun _ => false)
        (.intV 1)).2 = [] :=
  validation_raises_before_networks collZero false false false 4 (.str "p")
    none none none 8 8 1 false 3 1 0 2 1 .pil false false (fun _ => false)
    (.intV 1) (Or.inr (Or.inr (Or.inl (by norm_num))))

/-- C8 counterexample: the claim's policy — "`effective =
min(round(requested * strength), requested)` whenever a reference image
is supplied" — fails when a structural-control adapter is present: the
pipeline then passes the from-pure-noise flag (line 406:
`image is None or self.controlnet is not None`) to the schedule builder,
keeping all requested steps.  At `requested = 10`, `strength = 1/2`,
with an image and a ControlNet, the code yields 10 while the claimed
formula yields 5. -/
theorem effective_steps_counterexample :
    pipelineEffectiveSteps (some (.tensor [[1]])) true 10 (1/2) = 10 ∧
    min (Int.toNat (round ((10 : ℚ) * (1/2)))) 10 = 5 ∧
    pipelineEffectiveSteps (some (.tensor [[1]])) true 10 (1/2)
      ≠ min (Int.toNat (round ((10 : ℚ) * (1/2)))) 10 := by
  have h5 : ((10 : ℚ) * (1/2)) = ((5 : ℕ) : ℚ) := by norm_num
  have hr : min (Int.toNat (round ((10 : ℚ) * (1/2)))) 10 = 5 := by
    rw [h5, round_natCast]
    rfl
  exact ⟨rfl, hr, by rw [hr]; decide⟩

/-- C8 (amended): the effective step count equals
`min(round(requested_steps * strength), requested_steps)` whenever a
reference image is supplied *and no structural-control adapter is
present*; it equals `requested_steps` when no image is supplied or a
control adapter is present; and with an image-based start (image, no
adapter) at `strength = 1` it equals the requested count. -/
theorem effective_steps_policy
    (image : Option ImageInput) (hasControlnet : Bool) (requested : Nat)
    (strength : ℚ) :
    (image.isSome = true → hasControlnet = false →
      pipelineEffectiveSteps image hasControlnet requested strength
        = min (Int.toNat (round ((requested : ℚ) * strength))) requested) ∧
    (image = none ∨ hasControlnet = true →
      pipelineEffectiveSteps image hasControlnet requested strength
        = requested) ∧
    (image.isSome = true → hasControlnet = false → strength = 1 →
      pipelineEffectiveSteps image hasControlnet requested strength
        = requested) := by
  have hFlagSome : image.isSome = true → hasControlnet = false →
      pipelineFromNoiseFlag image hasControlnet = false := by
    intro hi hc
    cases image with
    | none => simp at hi
    | some v => simp [pipelineFromNoiseFlag, hc]
  refine ⟨?_, ?_, ?_⟩
  · intro hi hc
    simp [pipelineEffectiveSteps, effectiveStepCount, hFlagSome hi hc]
  · intro hor
    have hflag : pipelineFromNoiseFlag image hasControlnet = true := by
      rcases hor with hi | hc
      · simp [pipelineFromNoiseFlag, hi]
      · simp [pipelineFromNoiseFlag, hc]
    simp [pipelineEffectiveSteps, effectiveStepCount, hflag]
  · intro hi hc hs
    simp [pipelineEffectiveSteps, effectiveStepCount, hFlagSome hi hc, hs,
      round_natCast]

/-- Witness for C8 (amended) at concrete inputs. -/
theorem effective_steps_policy_witness :
    pipelineEffectiveSteps (some (.tensor [[1]])) false 4 (1/2)
      = min (Int.toNat (round ((4 : ℚ) * (1/2)))) 4 ∧
    pipelineEffectiveSteps none true 4 (1/2) = 4 ∧
    pipelineEffectiveSteps (some (.tensor [[1]])) false 4 1 = 4 :=
  ⟨(effective_steps_policy (some (.tensor [[1]])) false 4 (1/2)).1 rfl rfl,
   (effective_steps_policy none true 4 (1/2)).2.1 (Or.inl rfl),
   (effective_steps_policy (some (.tensor [[1]])) false 4 1).2.2 rfl rfl rfl⟩

end LPW
